import Mathlib

/- Verification of the postui terminal HTTP client.

   Shallow embedding of the key-event state machine in events/handler.go,
   the application model in the models package, and the request builder in
   httpclient/client.go.  Text widgets (textinput, textarea, viewport,
   list) are outside collaborators: each is modelled by its observable
   value, a focus flag, or a cursor index, and key-driven widget updates
   are abstracted as arbitrary functions on those values.  The top-level
   bubbletea Update loop is not among the sources; following the spec's
   dispatch description, key events enter HandleKeyEvent and transport
   results are folded in through SetResponseData and SetError. -/

namespace Postui

/-- Active top-level tab (models.Tab). -/
inductive Tab
  | request
  | response
  | saved
deriving DecidableEq

/-- Editable region of the request (models.Section, five-section variant). -/
inductive Section
  | method
  | url
  | headers
  | body
  | params
deriving DecidableEq

/-- HTTP method enum (models.HTTPMethod). -/
inductive HTTPMethod
  | get
  | post
  | put
  | delete
  | patch
  | head
  | options
deriving DecidableEq

/-- models.MethodNames. -/
def MethodNames : List String :=
  ["GET", "POST", "PUT", "DELETE", "PATCH", "HEAD", "OPTIONS"]

/-- Underlying integer of a Tab value. -/
def Tab.idx : Tab → Nat
  | .request => 0
  | .response => 1
  | .saved => 2

/-- Conversion of a (taken modulo 3) integer to a Tab, as in Go casts after the modulus. -/
def Tab.fromIdx (n : Nat) : Tab :=
  match n % 3 with
  | 0 => .request
  | 1 => .response
  | _ => .saved

/-- Underlying integer of a Section value. -/
def Section.idx : Section → Nat
  | .method => 0
  | .url => 1
  | .headers => 2
  | .body => 3
  | .params => 4

/-- Conversion of a (taken modulo 5) integer to a Section. -/
def Section.fromIdx (n : Nat) : Section :=
  match n % 5 with
  | 0 => .method
  | 1 => .url
  | 2 => .headers
  | 3 => .body
  | _ => .params

/-- Underlying integer of an HTTPMethod value. -/
def HTTPMethod.idx : HTTPMethod → Nat
  | .get => 0
  | .post => 1
  | .put => 2
  | .delete => 3
  | .patch => 4
  | .head => 5
  | .options => 6

/-- Conversion of a (taken modulo 7) integer to an HTTPMethod. -/
def HTTPMethod.fromIdx (n : Nat) : HTTPMethod :=
  match n % 7 with
  | 0 => .get
  | 1 => .post
  | 2 => .put
  | 3 => .delete
  | 4 => .patch
  | 5 => .head
  | _ => .options

/-- MethodNames lookup, as in MethodNames[m.selectedMethod]. -/
def methodName : HTTPMethod → String
  | .get => "GET"
  | .post => "POST"
  | .put => "PUT"
  | .delete => "DELETE"
  | .patch => "PATCH"
  | .head => "HEAD"
  | .options => "OPTIONS"

/-- models.Header. -/
structure Header where
  key : String
  value : String
deriving DecidableEq

/-- models.Param. -/
structure Param where
  key : String
  value : String
deriving DecidableEq

/-- models.SavedRequest, at the level of observable values. -/
structure SavedRequest where
  name : String
  method : HTTPMethod
  url : String
  body : String
  headers : List Header
  params : List Param
deriving DecidableEq

/-- models.ResponseData. -/
structure ResponseData where
  body : String
  status : String
  time : String
  statusCode : Int
deriving DecidableEq

/-- models.ErrorData. -/
structure ErrorData where
  message : String
deriving DecidableEq

/-- A bubbletea text input or textarea, reduced to its observable value and
    focus flag. -/
structure TextInput where
  value : String
  focused : Bool
deriving DecidableEq

/-- models.AppModel.  The saved list widget is modelled by the item list
    together with its cursor index; the persisted field models the content
    of the requests.json file maintained by saveRequests (write-through). -/
structure AppState where
  urlInput : TextInput
  bodyInput : TextInput
  paramInput : TextInput
  headerInput : TextInput
  saveNameInput : TextInput
  responseVPContent : String
  savedItems : List SavedRequest
  savedIndex : Nat
  persisted : List SavedRequest
  params : List Param
  headers : List Header
  activeTab : Tab
  activeSection : Section
  selectedMethod : HTTPMethod
  loading : Bool
  response : String
  status : String
  responseTime : String
  errorMsg : String
  inputMode : Bool
  isSaving : Bool
  isDeleting : Bool
deriving DecidableEq

/-- Commands returned to the top-level loop (tea.Cmd): nothing, tea.Quit,
    or the deferred send-request closure produced by sendRequest. -/
inductive Cmd
  | nop
  | quit
  | send
deriving DecidableEq

/-- models.NewAppModel: fresh model with the single default Content-Type
    header; loadRequests fills the saved list from the presets file, whose
    content is the parameter. -/
def NewAppModel (loaded : List SavedRequest) : AppState :=
  { urlInput := ⟨"", false⟩
    bodyInput := ⟨"", false⟩
    paramInput := ⟨"", false⟩
    headerInput := ⟨"", false⟩
    saveNameInput := ⟨"", false⟩
    responseVPContent := ""
    savedItems := loaded
    savedIndex := 0
    persisted := loaded
    params := []
    headers := [⟨"Content-Type", "application/json"⟩]
    activeTab := .request
    activeSection := .method
    selectedMethod := .get
    loading := false
    response := ""
    status := ""
    responseTime := ""
    errorMsg := ""
    inputMode := false
    isSaving := false
    isDeleting := false }

/-- models.AppModel.AddHeader. -/
def AddHeader (key value : String) (s : AppState) : AppState :=
  { s with headers := s.headers ++ [⟨key, value⟩] }

/-- models.AppModel.AddParam. -/
def AddParam (key value : String) (s : AppState) : AppState :=
  { s with params := s.params ++ [⟨key, value⟩] }

/-- models.AppModel.RemoveLastHeader: drops headers[len-1] when non-empty. -/
def RemoveLastHeader (s : AppState) : AppState :=
  if 0 < s.headers.length then { s with headers := s.headers.dropLast } else s

/-- models.AppModel.RemoveLastParam. -/
def RemoveLastParam (s : AppState) : AppState :=
  if 0 < s.params.length then { s with params := s.params.dropLast } else s

/-- models.AppModel.SetLoading. -/
def SetLoading (b : Bool) (s : AppState) : AppState :=
  { s with loading := b }

/-- models.AppModel.GetCurrentMethod. -/
def GetCurrentMethod (s : AppState) : String :=
  methodName s.selectedMethod

/-- models.FormatJSON.  json.Indent is an outside collaborator, modelled
    by the parameter fj (returning none on a parse error, in which case the
    input is returned unchanged). -/
def FormatJSON (fj : String → Option String) (input : String) : String :=
  if input = "" then ""
  else
    match fj input with
    | some t => t
    | none => input

/-- models.AppModel.SetResponseData: folds a transport response into the
    model, formatting the body, composing the status line, clearing the
    error and switching to the Response tab. -/
def SetResponseData (fj : String → Option String) (d : ResponseData) (s : AppState) : AppState :=
  { s with
    loading := false
    response := FormatJSON fj d.body
    status := d.status ++ " (" ++ toString d.statusCode ++ ")"
    responseTime := d.time
    responseVPContent := FormatJSON fj d.body
    errorMsg := ""
    activeTab := .response }

/-- models.AppModel.SetError: folds a transport failure into the model. -/
def SetError (e : ErrorData) (s : AppState) : AppState :=
  { s with
    loading := false
    errorMsg := e.message
    response := ""
    status := "Error"
    responseTime := ""
    responseVPContent := e.message
    activeTab := .response }

/-- models.AppModel.AddNewSavedRequest, at value level: snapshots the draft
    under the given name, appends it and writes the whole list through to
    the store.  (The Go struct shares its header/param slices with the
    draft; that aliasing is modelled separately at the heap level below.) -/
def AddNewSavedRequest (name : String) (s : AppState) : AppState :=
  let newReq : SavedRequest :=
    ⟨name, s.selectedMethod, s.urlInput.value, s.bodyInput.value, s.headers, s.params⟩
  let items := s.savedItems ++ [newReq]
  { s with savedItems := items, persisted := items }

/-- models.AppModel.LoadRequestFromSaved: loads the selected item, if any,
    into the draft and switches to the Request tab. -/
def LoadRequestFromSaved (s : AppState) : AppState :=
  match s.savedItems[s.savedIndex]? with
  | some item =>
    { s with
      selectedMethod := item.method
      urlInput := { s.urlInput with value := item.url }
      bodyInput := { s.bodyInput with value := item.body }
      headers := item.headers
      params := item.params
      activeTab := .request }
  | none => s

/-- models.AppModel.DeleteSelectedRequest: when the list is non-empty,
    removes the item at the list cursor and writes the list through.
    (bubbletea keeps the cursor below the length for a non-empty list.) -/
def DeleteSelectedRequest (s : AppState) : AppState :=
  if 0 < s.savedItems.length then
    let items := s.savedItems.eraseIdx s.savedIndex
    { s with savedItems := items, persisted := items }
  else s

/-- httpclient.HTTPRequest.  A nil Go body slice is none; a non-empty body
    is its bytes. -/
structure HTTPRequest where
  method : String
  url : String
  headers : List Header
  params : List Param
  body : Option String
deriving DecidableEq

/-- httpclient.NewHTTPRequest: reads the live model when it runs. -/
def NewHTTPRequest (s : AppState) : HTTPRequest :=
  { method := GetCurrentMethod s
    url := s.urlInput.value
    headers := s.headers
    params := s.params
    body := if s.bodyInput.value ≠ "" then some s.bodyInput.value else none }

/-- strings.SplitN(v, sep, 2) for the single-character separator given as
    the equals sign, on the character list: splits at the first occurrence,
    or none when the separator does not occur. -/
def splitFirstEqL : List Char → Option (List Char × List Char)
  | [] => none
  | c :: cs =>
    if c = '=' then some ([], cs)
    else
      match splitFirstEqL cs with
      | some r => some (c :: r.1, r.2)
      | none => none

/-- strings.SplitN(v, eq, 2) at String level: some (before, after) when the
    input contains an equals sign (split at the first one), none otherwise
    (in Go, a one-element result). -/
def goSplitN2 (v : String) : Option (String × String) :=
  match splitFirstEqL v.data with
  | some r => some (⟨r.1⟩, ⟨r.2⟩)
  | none => none

/-- strings.ToLower: lower-cases every character (the key names involved
    are ASCII). -/
def goToLower (s : String) : String :=
  ⟨s.data.map Char.toLower⟩

/-- Observable behavior of the collaborator widgets that HandleKeyEvent itself
    updates: the save-name textinput's reaction to a forwarded key, and the
    saved-list cursor's reaction to an up/down key. -/
structure Widgets where
  saveNameUpd : String → String
  savedIdxUpd : Nat → Nat

/-- First half of events.EventHandler.updateFocus: blur every input. -/
def blurInputs (s : AppState) : AppState :=
  { s with
    urlInput := { s.urlInput with focused := false }
    headerInput := { s.headerInput with focused := false }
    bodyInput := { s.bodyInput with focused := false }
    paramInput := { s.paramInput with focused := false } }

/-- events.EventHandler.updateFocus: blur every input, then focus the one
    for the active section when in input mode on the Request tab.  (The
    mode, tab and section checks read fields the blurring does not touch,
    so they are made on the incoming state.) -/
def updateFocus (s : AppState) : AppState :=
  if s.inputMode = true ∧ s.activeTab = Tab.request then
    match s.activeSection with
    | .url => { blurInputs s with urlInput := { (blurInputs s).urlInput with focused := true } }
    | .headers => { blurInputs s with headerInput := { (blurInputs s).headerInput with focused := true } }
    | .body => { blurInputs s with bodyInput := { (blurInputs s).bodyInput with focused := true } }
    | .params => { blurInputs s with paramInput := { (blurInputs s).paramInput with focused := true } }
    | .method => blurInputs s
  else blurInputs s

/-- events.EventHandler.handleEnterOnRequestTab.  On Headers/Params with a
    non-empty buffer, split on the first equals sign and append on success,
    clearing the buffer; otherwise, with a non-empty URL, set loading and
    emit the send command. -/
def handleEnterOnRequestTab (s : AppState) : AppState × Cmd :=
  match s.activeSection with
  | .headers =>
    if s.headerInput.value ≠ "" then
      match goSplitN2 s.headerInput.value with
      | some kv =>
        ({ AddHeader kv.1 kv.2 s with headerInput := { s.headerInput with value := "" } }, Cmd.nop)
      | none => (s, Cmd.nop)
    else (s, Cmd.nop)
  | .params =>
    if s.paramInput.value ≠ "" then
      match goSplitN2 s.paramInput.value with
      | some kv =>
        ({ AddParam kv.1 kv.2 s with paramInput := { s.paramInput with value := "" } }, Cmd.nop)
      | none => (s, Cmd.nop)
    else (s, Cmd.nop)
  | _ =>
    if s.urlInput.value ≠ "" then (SetLoading true s, Cmd.send)
    else (s, Cmd.nop)

/-- events.EventHandler.handleEnterKey: dispatch on the active tab. -/
def handleEnterKey (s : AppState) : AppState × Cmd :=
  match s.activeTab with
  | .request => handleEnterOnRequestTab s
  | .saved => (LoadRequestFromSaved s, Cmd.nop)
  | .response => (s, Cmd.nop)

/-- events.EventHandler.handleBackspaceKey: on the Request tab only, with
    an empty buffer, pop the last header/param of the active section. -/
def handleBackspaceKey (s : AppState) : AppState × Cmd :=
  if s.activeTab ≠ Tab.request then (s, Cmd.nop)
  else
    match s.activeSection with
    | .headers =>
      if 0 < s.headers.length ∧ s.headerInput.value = "" then (RemoveLastHeader s, Cmd.nop)
      else (s, Cmd.nop)
    | .params =>
      if 0 < s.params.length ∧ s.paramInput.value = "" then (RemoveLastParam s, Cmd.nop)
      else (s, Cmd.nop)
    | _ => (s, Cmd.nop)

/-- Tail of events.EventHandler.handleSaveAsPrompt: the key is forwarded
    to the name input, which (as a bubbletea textinput) reacts only while
    focused. -/
def saveForward (w : Widgets) (s : AppState) : AppState :=
  if s.saveNameInput.focused = true then
    { s with saveNameInput := { s.saveNameInput with value := w.saveNameUpd s.saveNameInput.value } }
  else s

/-- events.EventHandler.handleSaveAsPrompt.  Enter saves under a non-empty
    name, clears and blurs the prompt and leaves saving mode; escape only
    clears; afterwards the key is forwarded to the name input.  Always
    consumed. -/
def handleSaveAsPrompt (w : Widgets) (s : AppState) (k : String) : AppState × Cmd × Bool :=
  match k with
  | "enter" =>
    (saveForward w
      { (if s.saveNameInput.value ≠ "" then AddNewSavedRequest s.saveNameInput.value s else s) with
        saveNameInput := ⟨"", false⟩, isSaving := false }, Cmd.nop, true)
  | "esc" =>
    (saveForward w { s with saveNameInput := ⟨"", false⟩, isSaving := false }, Cmd.nop, true)
  | _ => (saveForward w s, Cmd.nop, true)

/-- events.EventHandler.handleDeleteConfirmation: case-insensitive key
    match; y deletes and leaves deleting mode, n or escape only leaves it,
    anything else changes nothing.  Always consumed. -/
def handleDeleteConfirmation (s : AppState) (k : String) : AppState × Cmd × Bool :=
  match goToLower k with
  | "y" => ({ DeleteSelectedRequest s with isDeleting := false }, Cmd.nop, true)
  | "n" => ({ s with isDeleting := false }, Cmd.nop, true)
  | "esc" => ({ s with isDeleting := false }, Cmd.nop, true)
  | _ => (s, Cmd.nop, true)

/-- Digit shortcut in navigation mode: jump to a section on the Request tab. -/
def digitSection (n : Nat) (s : AppState) : AppState :=
  if s.activeTab = Tab.request then updateFocus { s with activeSection := Section.fromIdx n }
  else s

/-- events.EventHandler.handleNavigationMode. -/
def handleNavigationMode (w : Widgets) (s : AppState) (k : String) : AppState × Cmd × Bool :=
  match k with
  | "ctrl+c" => (s, Cmd.quit, true)
  | "q" => (s, Cmd.quit, true)
  | "i" => (updateFocus { s with inputMode := true }, Cmd.nop, true)
  | "a" => (updateFocus { s with inputMode := true }, Cmd.nop, true)
  | "ctrl+s" =>
    (if s.activeTab = Tab.request then
       { s with isSaving := true, saveNameInput := { s.saveNameInput with focused := true } }
     else s, Cmd.nop, true)
  | "left" =>
    (if s.activeTab = Tab.request ∧ s.activeSection = Section.method then
       { s with selectedMethod := HTTPMethod.fromIdx ((s.selectedMethod.idx + (MethodNames.length - 1)) % MethodNames.length) }
     else { s with activeTab := Tab.fromIdx ((s.activeTab.idx + 2) % 3) }, Cmd.nop, true)
  | "h" =>
    (if s.activeTab = Tab.request ∧ s.activeSection = Section.method then
       { s with selectedMethod := HTTPMethod.fromIdx ((s.selectedMethod.idx + (MethodNames.length - 1)) % MethodNames.length) }
     else { s with activeTab := Tab.fromIdx ((s.activeTab.idx + 2) % 3) }, Cmd.nop, true)
  | "right" =>
    (if s.activeTab = Tab.request ∧ s.activeSection = Section.method then
       { s with selectedMethod := HTTPMethod.fromIdx ((s.selectedMethod.idx + 1) % MethodNames.length) }
     else { s with activeTab := Tab.fromIdx ((s.activeTab.idx + 1) % 3) }, Cmd.nop, true)
  | "l" =>
    (if s.activeTab = Tab.request ∧ s.activeSection = Section.method then
       { s with selectedMethod := HTTPMethod.fromIdx ((s.selectedMethod.idx + 1) % MethodNames.length) }
     else { s with activeTab := Tab.fromIdx ((s.activeTab.idx + 1) % 3) }, Cmd.nop, true)
  | "k" =>
    (if s.activeTab = Tab.request then
       updateFocus { s with activeSection := Section.fromIdx ((s.activeSection.idx + 4) % 5) }
     else if s.activeTab = Tab.saved then { s with savedIndex := w.savedIdxUpd s.savedIndex }
     else s, Cmd.nop, true)
  | "up" =>
    (if s.activeTab = Tab.request then
       updateFocus { s with activeSection := Section.fromIdx ((s.activeSection.idx + 4) % 5) }
     else if s.activeTab = Tab.saved then { s with savedIndex := w.savedIdxUpd s.savedIndex }
     else s, Cmd.nop, true)
  | "j" =>
    (if s.activeTab = Tab.request then
       updateFocus { s with activeSection := Section.fromIdx ((s.activeSection.idx + 1) % 5) }
     else if s.activeTab = Tab.saved then { s with savedIndex := w.savedIdxUpd s.savedIndex }
     else s, Cmd.nop, true)
  | "down" =>
    (if s.activeTab = Tab.request then
       updateFocus { s with activeSection := Section.fromIdx ((s.activeSection.idx + 1) % 5) }
     else if s.activeTab = Tab.saved then { s with savedIndex := w.savedIdxUpd s.savedIndex }
     else s, Cmd.nop, true)
  | "tab" =>
    (if s.activeTab = Tab.request then
       updateFocus { s with activeSection := Section.fromIdx ((s.activeSection.idx + 1) % 5) }
     else s, Cmd.nop, true)
  | "shift+tab" =>
    (if s.activeTab = Tab.request then
       updateFocus { s with activeSection := Section.fromIdx ((s.activeSection.idx + 4) % 5) }
     else s, Cmd.nop, true)
  | "1" => (digitSection 0 s, Cmd.nop, true)
  | "2" => (digitSection 1 s, Cmd.nop, true)
  | "3" => (digitSection 2 s, Cmd.nop, true)
  | "4" => (digitSection 3 s, Cmd.nop, true)
  | "5" => (digitSection 4 s, Cmd.nop, true)
  | "d" =>
    (if s.activeTab = Tab.saved then { s with isDeleting := true } else s, Cmd.nop, true)
  | "enter" =>
    let r := handleEnterKey s
    (r.1, r.2, true)
  | "backspace" =>
    let r := handleBackspaceKey s
    (r.1, r.2, true)
  | _ => (s, Cmd.nop, false)

/-- events.EventHandler.handleInputMode: escape leaves input mode, quit
    keys quit unless the Body section is active, Enter on Headers/Params
    delegates to the request-tab Enter action; anything else is left to the
    focused widget. -/
def handleInputMode (s : AppState) (k : String) : AppState × Cmd × Bool :=
  match k with
  | "esc" => (updateFocus { s with inputMode := false }, Cmd.nop, true)
  | "ctrl+c" =>
    if s.activeSection ≠ Section.body then (s, Cmd.quit, true) else (s, Cmd.nop, false)
  | "q" =>
    if s.activeSection ≠ Section.body then (s, Cmd.quit, true) else (s, Cmd.nop, false)
  | "enter" =>
    if s.activeSection = Section.headers ∨ s.activeSection = Section.params then
      let r := handleEnterOnRequestTab s
      (r.1, r.2, true)
    else (s, Cmd.nop, false)
  | _ => (s, Cmd.nop, false)

/-- events.EventHandler.HandleKeyEvent: the save prompt has first priority,
    then the delete confirmation, then navigation or input mode. -/
def HandleKeyEvent (w : Widgets) (s : AppState) (k : String) : AppState × Cmd × Bool :=
  if s.isSaving = true then handleSaveAsPrompt w s k
  else if s.isDeleting = true then handleDeleteConfirmation s k
  else if s.inputMode = false then handleNavigationMode w s k
  else handleInputMode s k

/-- A draft mutation that the event layer can apply to the model between
    the dispatch of a send and the execution of its command: method
    selection, url/body text replacement, and the append/remove-last
    operations on headers and params. -/
inductive DraftEdit
  | setMethod (m : HTTPMethod)
  | setURL (u : String)
  | setBody (b : String)
  | addHeader (key value : String)
  | removeLastHeader
  | addParam (key value : String)
  | removeLastParam
deriving DecidableEq

/-- Application of one draft edit through the model's own mutators. -/
def applyEdit (s : AppState) (e : DraftEdit) : AppState :=
  match e with
  | .setMethod m => { s with selectedMethod := m }
  | .setURL u => { s with urlInput := { s.urlInput with value := u } }
  | .setBody b => { s with bodyInput := { s.bodyInput with value := b } }
  | .addHeader k v => AddHeader k v s
  | .removeLastHeader => RemoveLastHeader s
  | .addParam k v => AddParam k v s
  | .removeLastParam => RemoveLastParam s

/-- Application of a sequence of draft edits, in order. -/
def applyEdits (es : List DraftEdit) (s : AppState) : AppState :=
  es.foldl applyEdit s

/-- Whether an edit touches the header list. -/
def DraftEdit.touchesHeaders : DraftEdit → Bool
  | .addHeader _ _ => true
  | .removeLastHeader => true
  | _ => false

/-- The request the Transport receives.  The tea.Cmd closure built by
    events.EventHandler.sendRequest captures the pointer to the AppModel,
    not a copy: when the bubbletea runtime later executes the command, the
    closure calls httpclient.NewHTTPRequest on the model as it is at that
    moment, after the draft edits dispatched in between. -/
def sendRequestAtExec (s0 : AppState) (edits : List DraftEdit) : HTTPRequest :=
  NewHTTPRequest (applyEdits edits s0)

/- Heap-level model of the Go slices behind the header/param lists.

   A backing array is a list whose length is the array's capacity; a slice
   value is an array identifier plus a length (every slice in this code
   starts at offset zero).  Assigning a slice copies the identifier and
   length, so the copy shares the backing array with the original - which
   is exactly what AddNewSavedRequest and LoadRequestFromSaved do with the
   draft's header and param slices. -/

/-- The store of backing arrays, indexed by position. -/
abbrev GoHeap (α : Type) := List (List α)

/-- A Go slice value: backing-array id and length (offset is always 0 in
    this code; capacity is the backing array's length). -/
structure SliceRef where
  arr : Nat
  len : Nat
deriving DecidableEq

/-- The elements a slice denotes. -/
def sliceView (h : GoHeap α) (s : SliceRef) : List α :=
  (h.getD s.arr []).take s.len

/-- Go append of one element: when the length is below the capacity the
    backing array is reused and the element is written in place (the rule
    the Go specification gives for append); otherwise a fresh, larger
    array is allocated. -/
def goAppend (h : GoHeap α) (s : SliceRef) (x : α) : GoHeap α × SliceRef :=
  let a := h.getD s.arr []
  if s.len < a.length then
    (h.set s.arr (a.set s.len x), ⟨s.arr, s.len + 1⟩)
  else
    (h ++ [a.take s.len ++ [x]], ⟨h.length, s.len + 1⟩)

/-- The reslicing s[0:len-1]: same backing array, one element shorter. -/
def goTruncLast (s : SliceRef) : SliceRef :=
  ⟨s.arr, s.len - 1⟩

/-- models.SavedRequest at heap level: the header/param fields are slice
    values sharing backing arrays with whatever they were copied from. -/
structure SavedRequestH where
  name : String
  method : HTTPMethod
  url : String
  body : String
  headers : SliceRef
  params : SliceRef
deriving DecidableEq

/-- The draft and preset portion of models.AppModel at heap level. -/
structure AppModelH where
  heapH : GoHeap Header
  heapP : GoHeap Param
  headers : SliceRef
  params : SliceRef
  url : String
  body : String
  method : HTTPMethod
  savedRequests : List SavedRequestH
  savedIndex : Nat
  persisted : List SavedRequest

/-- json.Marshal of one saved request inside saveRequests: the bytes
    written to disk record the values the slices denote at write time. -/
def marshalH (m : AppModelH) (r : SavedRequestH) : SavedRequest :=
  ⟨r.name, r.method, r.url, r.body, sliceView m.heapH r.headers, sliceView m.heapP r.params⟩

/-- models.AppModel.AddHeader at heap level: m.headers = append(m.headers, h). -/
def AddHeaderH (key value : String) (m : AppModelH) : AppModelH :=
  let r := goAppend m.heapH m.headers ⟨key, value⟩
  { m with heapH := r.1, headers := r.2 }

/-- models.AppModel.RemoveLastHeader at heap level: m.headers = m.headers[:len-1]. -/
def RemoveLastHeaderH (m : AppModelH) : AppModelH :=
  if 0 < m.headers.len then { m with headers := goTruncLast m.headers } else m

/-- models.AppModel.AddNewSavedRequest at heap level: the stored snapshot
    copies the draft's slice values, sharing their backing arrays, and the
    full list is marshalled to the store. -/
def AddNewSavedRequestH (name : String) (m : AppModelH) : AppModelH :=
  let newReq : SavedRequestH := ⟨name, m.method, m.url, m.body, m.headers, m.params⟩
  let reqs := m.savedRequests ++ [newReq]
  let m1 := { m with savedRequests := reqs }
  { m1 with persisted := reqs.map (marshalH m1) }

/-- models.AppModel.LoadRequestFromSaved at heap level: the draft takes the
    stored item's slice values (again sharing arrays). -/
def LoadRequestFromSavedH (m : AppModelH) : AppModelH :=
  match m.savedRequests[m.savedIndex]? with
  | some item =>
    { m with
      method := item.method
      url := item.url
      body := item.body
      headers := item.headers
      params := item.params }
  | none => m

/-- models.NewAppModel at heap level: the header list literal is an array
    of capacity one; the param literal is empty. -/
def NewAppModelH : AppModelH :=
  { heapH := [[⟨"Content-Type", "application/json"⟩]]
    heapP := [[]]
    headers := ⟨0, 1⟩
    params := ⟨0, 0⟩
    url := ""
    body := ""
    method := .get
    savedRequests := []
    savedIndex := 0
    persisted := [] }

/- Transition system for reachability of UI states.  A step is a key event
   through HandleKeyEvent (for any key and any widget behavior), the fold
   of a transport result through SetResponseData or SetError, or an update
   internal to one of the widgets (which can change text values, the
   viewport content and the saved-list cursor, but no model flag).  This
   over-approximates what the top-level loop can do, so an invariant proved
   for all reachable states covers every actual execution. -/

/-- Effect of an update internal to the widgets: text values, focus
    states, the viewport content and the saved-list cursor may change, but
    no model flag, list or tab does. -/
def widgetUpdate (s : AppState) (u hb b p n : TextInput) (vp : String) (i : Nat) : AppState :=
  { s with
    urlInput := u
    headerInput := hb
    bodyInput := b
    paramInput := p
    saveNameInput := n
    responseVPContent := vp
    savedIndex := i }

/-- One dispatch step of the UI. -/
inductive Step : AppState → AppState → Prop
  | key (w : Widgets) (k : String) (s : AppState) :
      Step s (HandleKeyEvent w s k).1
  | response (fj : String → Option String) (d : ResponseData) (s : AppState) :
      Step s (SetResponseData fj d s)
  | failure (e : ErrorData) (s : AppState) :
      Step s (SetError e s)
  | widget (s : AppState) (u hb b p n : TextInput) (vp : String) (i : Nat) :
      Step s (widgetUpdate s u hb b p n vp i)

/-- A state the application can be in: reachable from a fresh model (for
    some content of the presets file) by dispatch steps. -/
def Reachable (s : AppState) : Prop :=
  ∃ loaded, Relation.ReflTransGen Step (NewAppModel loaded) s

/- Concrete states used to evaluate the embedded code on specific inputs. -/

/-- A state at the moment Enter dispatches a send: non-empty URL, loading set. -/
def c1Dispatch : AppState :=
  { NewAppModel [] with urlInput := ⟨"http://a", false⟩, loading := true }

/-- Heap-level state just after saving the preset Demo while the draft
    headers are the default Content-Type header followed by (B, 2). -/
def c2AfterSave : AppModelH :=
  AddNewSavedRequestH "Demo" (AddHeaderH "B" "2" NewAppModelH)

/-- The same run after popping the last header, adding (C, 3), and then
    selecting the preset Demo from the saved list. -/
def c2AfterLoad : AppModelH :=
  LoadRequestFromSavedH (AddHeaderH "C" "3" (RemoveLastHeaderH c2AfterSave))

/-- A state on the Response tab whose (latent) active section is Headers,
    with an empty header buffer and two headers. -/
def c6Counter : AppState :=
  { NewAppModel [] with
    activeTab := Tab.response
    activeSection := Section.headers
    headers := [⟨"A", "1"⟩, ⟨"B", "2"⟩] }

/-- Request-tab state with Headers active, an empty buffer and two headers. -/
def c6Request : AppState :=
  { NewAppModel [] with
    activeSection := Section.headers
    headers := [⟨"A", "1"⟩, ⟨"B", "2"⟩] }

/-- Request-tab state with Headers active and buffer content X=1=2. -/
def c5State : AppState :=
  { NewAppModel [] with
    activeSection := Section.headers
    headerInput := ⟨"X=1=2", true⟩ }

/-- Delete-confirmation state with one saved preset selected. -/
def c4State : AppState :=
  { NewAppModel [⟨"Demo", .get, "http://x", "", [], []⟩] with isDeleting := true }

/-- A state with the URL section active and the URL field empty. -/
def c8State : AppState :=
  { NewAppModel [] with activeSection := Section.url }

/-- Widget behavior that leaves values and cursors unchanged. -/
def idW : Widgets :=
  ⟨id, id⟩

/-- The fresh model after pressing ctrl+s: the save prompt is open. -/
def sSaving : AppState :=
  (HandleKeyEvent idW (NewAppModel []) "ctrl+s").1

/- Supporting lemmas. -/

/-- An edit that does not touch the header list leaves it unchanged. -/
theorem headers_applyEdit (s : AppState) (e : DraftEdit)
    (h : e.touchesHeaders = false) : (applyEdit s e).headers = s.headers := by
  cases e with
  | addHeader k v => simp [DraftEdit.touchesHeaders] at h
  | removeLastHeader => simp [DraftEdit.touchesHeaders] at h
  | setMethod m => rfl
  | setURL u => rfl
  | setBody b => rfl
  | addParam k v => rfl
  | removeLastParam =>
    show (RemoveLastParam s).headers = s.headers
    unfold RemoveLastParam
    split <;> rfl

/-- A sequence of edits none of which touches the header list leaves it
    unchanged. -/
theorem headers_applyEdits (es : List DraftEdit) (s : AppState)
    (h : ∀ e ∈ es, e.touchesHeaders = false) :
    (applyEdits es s).headers = s.headers := by
  induction es generalizing s with
  | nil => rfl
  | cons e es ih =>
    have h1 : applyEdits (e :: es) s = applyEdits es (applyEdit s e) := rfl
    rw [h1, ih (applyEdit s e) (fun x hx => h x (List.mem_cons_of_mem _ hx)),
      headers_applyEdit s e (h e (List.mem_cons_self _ _))]

/-- Splitting at the first equals sign of l ++ eq :: r finds exactly l and
    r when l is free of the separator. -/
theorem splitFirstEqL_append (l r : List Char) (h : '=' ∉ l) :
    splitFirstEqL (l ++ '=' :: r) = some (l, r) := by
  induction l with
  | nil => simp [splitFirstEqL]
  | cons c cs ih =>
    have hc : ¬(c = '=') := fun hh => h (hh ▸ List.mem_cons_self c cs)
    have hcs : '=' ∉ cs := fun hh => h (List.mem_cons_of_mem _ hh)
    simp [splitFirstEqL, hc, ih hcs]

/-- A list without the separator does not split. -/
theorem splitFirstEqL_eq_none (l : List Char) (h : '=' ∉ l) :
    splitFirstEqL l = none := by
  induction l with
  | nil => rfl
  | cons c cs ih =>
    have hc : ¬(c = '=') := fun hh => h (hh ▸ List.mem_cons_self c cs)
    have hcs : '=' ∉ cs := fun hh => h (List.mem_cons_of_mem _ hh)
    simp [splitFirstEqL, hc, ih hcs]

/-- String-level reading of the two lemmas above. -/
theorem goSplitN2_append (a b : String) (h : '=' ∉ a.data) :
    goSplitN2 (a ++ "=" ++ b) = some (a, b) := by
  unfold goSplitN2
  have hdata : (a ++ "=" ++ b).data = a.data ++ '=' :: b.data := by
    simp [String.data_append]
  rw [hdata, splitFirstEqL_append a.data b.data h]

/-- A buffer without an equals sign does not split. -/
theorem goSplitN2_eq_none (v : String) (h : '=' ∉ v.data) :
    goSplitN2 v = none := by
  unfold goSplitN2
  rw [splitFirstEqL_eq_none v.data h]

/-- The focus recomputation touches no mode flag. -/
@[simp]
theorem updateFocus_isSaving (s : AppState) : (updateFocus s).isSaving = s.isSaving := by
  unfold updateFocus
  split
  · split <;> rfl
  · rfl

/-- The focus recomputation touches no mode flag. -/
@[simp]
theorem updateFocus_isDeleting (s : AppState) : (updateFocus s).isDeleting = s.isDeleting := by
  unfold updateFocus
  split
  · split <;> rfl
  · rfl

/-- Loading a preset touches no mode flag. -/
@[simp]
theorem LoadRequestFromSaved_isSaving (s : AppState) :
    (LoadRequestFromSaved s).isSaving = s.isSaving := by
  unfold LoadRequestFromSaved
  split <;> rfl

/-- Loading a preset touches no mode flag. -/
@[simp]
theorem LoadRequestFromSaved_isDeleting (s : AppState) :
    (LoadRequestFromSaved s).isDeleting = s.isDeleting := by
  unfold LoadRequestFromSaved
  split <;> rfl

/-- The request-tab Enter action touches no mode flag. -/
@[simp]
theorem handleEnterOnRequestTab_isSaving (s : AppState) :
    (handleEnterOnRequestTab s).1.isSaving = s.isSaving := by
  unfold handleEnterOnRequestTab
  repeat' split
  all_goals rfl

/-- The request-tab Enter action touches no mode flag. -/
@[simp]
theorem handleEnterOnRequestTab_isDeleting (s : AppState) :
    (handleEnterOnRequestTab s).1.isDeleting = s.isDeleting := by
  unfold handleEnterOnRequestTab
  repeat' split
  all_goals rfl

/-- The Enter action touches no mode flag. -/
@[simp]
theorem handleEnterKey_isSaving (s : AppState) :
    (handleEnterKey s).1.isSaving = s.isSaving := by
  unfold handleEnterKey
  split
  · exact handleEnterOnRequestTab_isSaving s
  · exact LoadRequestFromSaved_isSaving s
  · rfl

/-- The Enter action touches no mode flag. -/
@[simp]
theorem handleEnterKey_isDeleting (s : AppState) :
    (handleEnterKey s).1.isDeleting = s.isDeleting := by
  unfold handleEnterKey
  split
  · exact handleEnterOnRequestTab_isDeleting s
  · exact LoadRequestFromSaved_isDeleting s
  · rfl

/-- The Backspace action touches no mode flag. -/
@[simp]
theorem handleBackspaceKey_isSaving (s : AppState) :
    (handleBackspaceKey s).1.isSaving = s.isSaving := by
  simp only [handleBackspaceKey, RemoveLastHeader, RemoveLastParam]
  repeat' split
  all_goals rfl

/-- The Backspace action touches no mode flag. -/
@[simp]
theorem handleBackspaceKey_isDeleting (s : AppState) :
    (handleBackspaceKey s).1.isDeleting = s.isDeleting := by
  simp only [handleBackspaceKey, RemoveLastHeader, RemoveLastParam]
  repeat' split
  all_goals rfl

/-- The digit shortcut touches no mode flag. -/
@[simp]
theorem digitSection_isSaving (n : Nat) (s : AppState) :
    (digitSection n s).isSaving = s.isSaving := by
  unfold digitSection
  split
  · simp
  · rfl

/-- The digit shortcut touches no mode flag. -/
@[simp]
theorem digitSection_isDeleting (n : Nat) (s : AppState) :
    (digitSection n s).isDeleting = s.isDeleting := by
  unfold digitSection
  split
  · simp
  · rfl

/-- Snapshotting a preset touches no mode flag. -/
@[simp]
theorem AddNewSavedRequest_isSaving (v : String) (s : AppState) :
    (AddNewSavedRequest v s).isSaving = s.isSaving :=
  rfl

/-- Snapshotting a preset touches no mode flag. -/
@[simp]
theorem AddNewSavedRequest_isDeleting (v : String) (s : AppState) :
    (AddNewSavedRequest v s).isDeleting = s.isDeleting :=
  rfl

/-- Forwarding a key to the name input touches no mode flag. -/
@[simp]
theorem saveForward_isSaving (w : Widgets) (s : AppState) :
    (saveForward w s).isSaving = s.isSaving := by
  unfold saveForward
  split <;> rfl

/-- Forwarding a key to the name input touches no mode flag. -/
@[simp]
theorem saveForward_isDeleting (w : Widgets) (s : AppState) :
    (saveForward w s).isDeleting = s.isDeleting := by
  unfold saveForward
  split <;> rfl

/-- The save prompt never opens the delete confirmation. -/
@[simp]
theorem handleSaveAsPrompt_isDeleting (w : Widgets) (s : AppState) (k : String) :
    (handleSaveAsPrompt w s k).1.isDeleting = s.isDeleting := by
  unfold handleSaveAsPrompt
  repeat' split
  all_goals simp

/-- The save prompt consumes every key. -/
theorem handleSaveAsPrompt_consumed (w : Widgets) (s : AppState) (k : String) :
    (handleSaveAsPrompt w s k).2.2 = true := by
  unfold handleSaveAsPrompt
  split <;> rfl

/-- The delete confirmation never opens the save prompt. -/
@[simp]
theorem handleDeleteConfirmation_isSaving (s : AppState) (k : String) :
    (handleDeleteConfirmation s k).1.isSaving = s.isSaving := by
  simp only [handleDeleteConfirmation, DeleteSelectedRequest]
  repeat' split
  all_goals rfl

/-- The delete confirmation consumes every key. -/
theorem handleDeleteConfirmation_consumed (s : AppState) (k : String) :
    (handleDeleteConfirmation s k).2.2 = true := by
  unfold handleDeleteConfirmation
  split <;> rfl

/-- The input-mode handler touches no mode flag. -/
@[simp]
theorem handleInputMode_isSaving (s : AppState) (k : String) :
    (handleInputMode s k).1.isSaving = s.isSaving := by
  unfold handleInputMode
  repeat' split
  all_goals simp

/-- The input-mode handler touches no mode flag. -/
@[simp]
theorem handleInputMode_isDeleting (s : AppState) (k : String) :
    (handleInputMode s k).1.isDeleting = s.isDeleting := by
  unfold handleInputMode
  repeat' split
  all_goals simp

/-- From a state with both overlays closed, the navigation handler opens
    at most one of them. -/
theorem handleNavigationMode_inv (w : Widgets) (s : AppState) (k : String)
    (hs : s.isSaving = false) (hd : s.isDeleting = false) :
    ¬((handleNavigationMode w s k).1.isSaving = true ∧
      (handleNavigationMode w s k).1.isDeleting = true) := by
  unfold handleNavigationMode
  repeat' split
  all_goals simp_all

/-- One dispatch step preserves the overlay-exclusion invariant. -/
theorem Step.preserves_inv {s t : AppState} (hstep : Step s t)
    (hinv : ¬(s.isSaving = true ∧ s.isDeleting = true)) :
    ¬(t.isSaving = true ∧ t.isDeleting = true) := by
  cases hstep with
  | key w k =>
    unfold HandleKeyEvent
    by_cases hsv : s.isSaving = true
    · have hd : s.isDeleting = false := by
        cases hdv : s.isDeleting
        · rfl
        · exact absurd ⟨hsv, hdv⟩ hinv
      simp [hsv, hd]
    · have hs : s.isSaving = false := by
        cases hv : s.isSaving
        · rfl
        · exact absurd hv hsv
      by_cases hdv : s.isDeleting = true
      · simp [hs, hdv]
      · have hd : s.isDeleting = false := by
          cases hv : s.isDeleting
          · rfl
          · exact absurd hv hdv
        by_cases him : s.inputMode = false
        · simp only [hs, hdv, him, Bool.false_eq_true, if_false, if_true]
          exact handleNavigationMode_inv w s k hs hd
        · simp [hs, hdv, him, hd]
  | response fj d => simp [SetResponseData, hinv]
  | failure e => simp [SetError, hinv]
  | widget u hb b p n vp i => simpa [widgetUpdate] using hinv


/-- C1: the claim says the Transport receives an immutable snapshot of the
    draft taken when Enter was pressed.  It does not: the send command
    captures the model pointer and builds the request when it executes, so
    an URL edit performed after dispatch reaches the Transport.  From the
    dispatch state with URL http://a, editing the URL to http://b before
    the command runs makes the Transport see http://b, while the claimed
    dispatch-time snapshot has http://a. -/
theorem c1_transport_reads_live_draft :
    (sendRequestAtExec c1Dispatch [DraftEdit.setURL "http://b"]).url = "http://b" ∧
    (NewHTTPRequest c1Dispatch).url = "http://a" ∧
    sendRequestAtExec c1Dispatch [DraftEdit.setURL "http://b"] ≠ NewHTTPRequest c1Dispatch := by
  refine ⟨rfl, rfl, ?_⟩
  decide

/-- C2: the claim says loading a saved preset restores the draft exactly as
    it was at save time, whatever happened in between.  The saved snapshot
    shares its header slice's backing array with the draft, so popping the
    last header and appending a new one after the save overwrites the
    stored preset in place: the preset Demo is saved (and marshalled to
    disk) with headers Content-Type and (B, 2), yet after the pop, the
    append of (C, 3) and the load, the draft holds (C, 3) where (B, 2) was
    saved. -/
theorem c2_saved_preset_aliased :
    sliceView c2AfterSave.heapH c2AfterSave.headers =
      [⟨"Content-Type", "application/json"⟩, ⟨"B", "2"⟩] ∧
    c2AfterSave.persisted =
      [⟨"Demo", HTTPMethod.get, "", "",
        [⟨"Content-Type", "application/json"⟩, ⟨"B", "2"⟩], []⟩] ∧
    sliceView c2AfterLoad.heapH c2AfterLoad.headers =
      [⟨"Content-Type", "application/json"⟩, ⟨"C", "3"⟩] ∧
    sliceView c2AfterLoad.heapH c2AfterLoad.headers ≠
      sliceView c2AfterSave.heapH c2AfterSave.headers := by
  refine ⟨rfl, rfl, rfl, ?_⟩
  decide

/-- Every reachable state keeps the overlay-exclusion invariant. -/
theorem reachable_inv (s : AppState) (h : Reachable s) :
    ¬(s.isSaving = true ∧ s.isDeleting = true) := by
  obtain ⟨loaded, hr⟩ := h
  induction hr with
  | refl => simp [NewAppModel]
  | tail _ hstep ih => exact hstep.preserves_inv ih

/-- C3: in every reachable state the save prompt and the delete
    confirmation are never both open; while the save prompt is open every
    key event goes to the save-prompt handler and is consumed, and while
    the delete confirmation is open every key event goes to the
    delete-confirmation handler and is consumed — none reaches the
    navigation or text-edit handler. -/
theorem c3_overlays_exclusive_and_absorb (s : AppState) (hreach : Reachable s) :
    ¬(s.isSaving = true ∧ s.isDeleting = true) ∧
    (∀ (w : Widgets) (k : String), s.isSaving = true →
      HandleKeyEvent w s k = handleSaveAsPrompt w s k ∧
      (HandleKeyEvent w s k).2.2 = true) ∧
    (∀ (w : Widgets) (k : String), s.isDeleting = true →
      HandleKeyEvent w s k = handleDeleteConfirmation s k ∧
      (HandleKeyEvent w s k).2.2 = true) := by
  have hinv := reachable_inv s hreach
  refine ⟨hinv, ?_, ?_⟩
  · intro w k hs
    have h1 : HandleKeyEvent w s k = handleSaveAsPrompt w s k := by
      simp [HandleKeyEvent, hs]
    exact ⟨h1, by rw [h1]; exact handleSaveAsPrompt_consumed w s k⟩
  · intro w k hd
    have hs : s.isSaving = false := by
      cases hv : s.isSaving
      · rfl
      · exact absurd ⟨hv, hd⟩ hinv
    have h1 : HandleKeyEvent w s k = handleDeleteConfirmation s k := by
      simp [HandleKeyEvent, hs, hd]
    exact ⟨h1, by rw [h1]; exact handleDeleteConfirmation_consumed s k⟩

/-- C3 witness: after ctrl+s on a fresh model the save prompt is open, the
    two overlays are not both open, and a key is routed to the save-prompt
    handler and consumed. -/
theorem c3_overlays_witness :
    ¬(sSaving.isSaving = true ∧ sSaving.isDeleting = true) ∧
    HandleKeyEvent idW sSaving "q" = handleSaveAsPrompt idW sSaving "q" ∧
    (HandleKeyEvent idW sSaving "q").2.2 = true := by
  have hreach : Reachable sSaving :=
    ⟨[], Relation.ReflTransGen.single (Step.key idW "ctrl+s" (NewAppModel []))⟩
  have h := c3_overlays_exclusive_and_absorb sSaving hreach
  have hq := h.2.1 idW "q" (by decide)
  exact ⟨h.1, hq.1, hq.2⟩

/-- C4: while the delete confirmation is open, every key is consumed;
    case-insensitively, y removes exactly the selected saved request,
    persists the updated full list and leaves delete mode; n or escape
    leaves delete mode without deleting; any other key changes nothing and
    stays in delete mode. -/
theorem c4_delete_confirmation (s : AppState) (k : String) (hdel : s.isDeleting = true) :
    (handleDeleteConfirmation s k).2.2 = true ∧
    (goToLower k = "y" → s.savedIndex < s.savedItems.length →
      (handleDeleteConfirmation s k).1 =
        { s with savedItems := s.savedItems.eraseIdx s.savedIndex,
                 persisted := s.savedItems.eraseIdx s.savedIndex,
                 isDeleting := false }) ∧
    ((goToLower k = "n" ∨ goToLower k = "esc") →
      (handleDeleteConfirmation s k).1 = { s with isDeleting := false }) ∧
    (goToLower k ≠ "y" → goToLower k ≠ "n" → goToLower k ≠ "esc" →
      (handleDeleteConfirmation s k).1 = s ∧
      (handleDeleteConfirmation s k).1.isDeleting = true) := by
  refine ⟨?_, ?_, ?_, ?_⟩
  · unfold handleDeleteConfirmation
    split <;> rfl
  · intro hy hidx
    have hlen : 0 < s.savedItems.length := Nat.lt_of_le_of_lt (Nat.zero_le _) hidx
    simp [handleDeleteConfirmation, hy, DeleteSelectedRequest, hlen]
  · intro hne
    rcases hne with hn | hesc
    · simp [handleDeleteConfirmation, hn]
    · simp [handleDeleteConfirmation, hesc]
  · intro hy hn hesc
    unfold handleDeleteConfirmation
    constructor
    · split
      · simp_all
      · simp_all
      · simp_all
      · rfl
    · split
      · simp_all
      · simp_all
      · simp_all
      · exact hdel

/-- C4 witness: an uppercase Y deletes the single selected preset. -/
theorem c4_delete_witness :
    (handleDeleteConfirmation c4State "Y").2.2 = true ∧
    (handleDeleteConfirmation c4State "Y").1 =
      { c4State with savedItems := [], persisted := [], isDeleting := false } := by
  have h := c4_delete_confirmation c4State "Y" rfl
  exact ⟨h.1, h.2.1 (by decide) (by decide)⟩

/-- C5: with the Headers (respectively Params) section active, Enter on a
    buffer of the shape a=b (a free of equals signs, so the split is at
    the first occurrence) appends (a, b) at the end of the list and clears
    the buffer, while a buffer without an equals sign appends nothing and
    leaves the state, buffer included, unchanged. -/
theorem c5_enter_splits_on_first_eq (s : AppState) (a b : String) :
    (s.activeSection = Section.headers →
      ('=' ∉ a.data → s.headerInput.value = a ++ "=" ++ b →
        handleEnterOnRequestTab s =
          ({ AddHeader a b s with headerInput := { s.headerInput with value := "" } }, Cmd.nop)) ∧
      ('=' ∉ s.headerInput.value.data → handleEnterOnRequestTab s = (s, Cmd.nop))) ∧
    (s.activeSection = Section.params →
      ('=' ∉ a.data → s.paramInput.value = a ++ "=" ++ b →
        handleEnterOnRequestTab s =
          ({ AddParam a b s with paramInput := { s.paramInput with value := "" } }, Cmd.nop)) ∧
      ('=' ∉ s.paramInput.value.data → handleEnterOnRequestTab s = (s, Cmd.nop))) := by
  have hval : ∀ v : String, v = a ++ "=" ++ b → v ≠ "" := by
    intro v hv hh
    rw [hv] at hh
    have h2 := congrArg String.data hh
    simp [String.data_append] at h2
  constructor
  · intro hsec
    constructor
    · intro ha hv
      have hne : s.headerInput.value ≠ "" := hval _ hv
      have hsplit : goSplitN2 s.headerInput.value = some (a, b) := by
        rw [hv]
        exact goSplitN2_append a b ha
      simp [handleEnterOnRequestTab, hsec, hne, hsplit]
    · intro ha
      have hnone : goSplitN2 s.headerInput.value = none := goSplitN2_eq_none _ ha
      by_cases hv : s.headerInput.value = ""
      · simp [handleEnterOnRequestTab, hsec, hv]
      · simp [handleEnterOnRequestTab, hsec, hv, hnone]
  · intro hsec
    constructor
    · intro ha hv
      have hne : s.paramInput.value ≠ "" := hval _ hv
      have hsplit : goSplitN2 s.paramInput.value = some (a, b) := by
        rw [hv]
        exact goSplitN2_append a b ha
      simp [handleEnterOnRequestTab, hsec, hne, hsplit]
    · intro ha
      have hnone : goSplitN2 s.paramInput.value = none := goSplitN2_eq_none _ ha
      by_cases hv : s.paramInput.value = ""
      · simp [handleEnterOnRequestTab, hsec, hv]
      · simp [handleEnterOnRequestTab, hsec, hv, hnone]

/-- C5 witness: buffer X=1=2 appends exactly (X, 1=2) after the default
    header and clears the buffer. -/
theorem c5_split_witness :
    handleEnterOnRequestTab c5State =
      ({ AddHeader "X" "1=2" c5State with
         headerInput := { c5State.headerInput with value := "" } }, Cmd.nop) ∧
    (AddHeader "X" "1=2" c5State).headers =
      [⟨"Content-Type", "application/json"⟩, ⟨"X", "1=2"⟩] := by
  have h := ((c5_enter_splits_on_first_eq c5State "X" "1=2").1 rfl).1 (by decide) (by decide)
  exact ⟨h, by decide⟩

/-- C6 counterexample: with the Headers section active but the Response
    tab on top, Backspace over an empty buffer removes nothing, against
    the claim's unconditional reading. -/
theorem c6_counterexample :
    c6Counter.activeSection = Section.headers ∧
    c6Counter.headerInput.value = "" ∧
    c6Counter.headers = [⟨"A", "1"⟩, ⟨"B", "2"⟩] ∧
    (handleBackspaceKey c6Counter).1.headers = [⟨"A", "1"⟩, ⟨"B", "2"⟩] ∧
    (handleBackspaceKey c6Counter).1.headers ≠ [⟨"A", "1"⟩] := by
  refine ⟨rfl, rfl, rfl, rfl, ?_⟩
  decide

/-- C6 amended: on the Request tab, Backspace with the Headers
    (respectively Params) section active pops exactly the most recently
    appended entry when the corresponding buffer is empty and the list is
    non-empty, and removes no structured entry when the buffer is
    non-empty. -/
theorem c6_backspace_pops_last_on_request_tab (s : AppState)
    (htab : s.activeTab = Tab.request) :
    (s.activeSection = Section.headers →
      (s.headerInput.value = "" → s.headers ≠ [] →
        handleBackspaceKey s = ({ s with headers := s.headers.dropLast }, Cmd.nop)) ∧
      (s.headerInput.value ≠ "" → handleBackspaceKey s = (s, Cmd.nop))) ∧
    (s.activeSection = Section.params →
      (s.paramInput.value = "" → s.params ≠ [] →
        handleBackspaceKey s = ({ s with params := s.params.dropLast }, Cmd.nop)) ∧
      (s.paramInput.value ≠ "" → handleBackspaceKey s = (s, Cmd.nop))) := by
  constructor
  · intro hsec
    constructor
    · intro hbuf hne
      have hlen : 0 < s.headers.length := List.length_pos.mpr hne
      simp [handleBackspaceKey, htab, hsec, hbuf, hlen, RemoveLastHeader]
    · intro hbuf
      simp [handleBackspaceKey, htab, hsec, hbuf]
  · intro hsec
    constructor
    · intro hbuf hne
      have hlen : 0 < s.params.length := List.length_pos.mpr hne
      simp [handleBackspaceKey, htab, hsec, hbuf, hlen, RemoveLastParam]
    · intro hbuf
      simp [handleBackspaceKey, htab, hsec, hbuf]

/-- C6 witness: on the Request tab with headers (A,1),(B,2) and an empty
    buffer, Backspace leaves exactly (A,1). -/
theorem c6_backspace_witness :
    handleBackspaceKey c6Request = ({ c6Request with headers := [⟨"A", "1"⟩] }, Cmd.nop) := by
  have h := ((c6_backspace_pops_last_on_request_tab c6Request rfl).1 rfl).1 rfl (by decide)
  exact h

/-- C7: folding a response sets the formatted body, the status line and
    the elapsed time and clears the error and the loading flag; folding an
    error sets the message and clears the body and the loading flag; after
    either fold at most one of response body and error message is
    populated. -/
theorem c7_fold_response_or_error (fj : String → Option String)
    (d : ResponseData) (e : ErrorData) (s : AppState) :
    ((SetResponseData fj d s).response = FormatJSON fj d.body ∧
     (SetResponseData fj d s).status = d.status ++ " (" ++ toString d.statusCode ++ ")" ∧
     (SetResponseData fj d s).responseTime = d.time ∧
     (SetResponseData fj d s).errorMsg = "" ∧
     (SetResponseData fj d s).loading = false) ∧
    ((SetError e s).errorMsg = e.message ∧
     (SetError e s).response = "" ∧
     (SetError e s).loading = false) ∧
    ¬((SetResponseData fj d s).response ≠ "" ∧ (SetResponseData fj d s).errorMsg ≠ "") ∧
    ¬((SetError e s).response ≠ "" ∧ (SetError e s).errorMsg ≠ "") := by
  refine ⟨⟨rfl, rfl, rfl, rfl, rfl⟩, ⟨rfl, rfl, rfl⟩, ?_, ?_⟩ <;>
    simp [SetResponseData, SetError]

/-- C8: with an empty URL and a section other than Headers or Params
    active, the Enter action changes nothing and emits no command: no
    send occurs and loading is untouched. -/
theorem c8_empty_url_enter_noop (s : AppState) (hurl : s.urlInput.value = "")
    (hh : s.activeSection ≠ Section.headers) (hp : s.activeSection ≠ Section.params) :
    handleEnterOnRequestTab s = (s, Cmd.nop) := by
  cases h : s.activeSection <;> simp_all [handleEnterOnRequestTab]

/-- C8 witness at a concrete state. -/
theorem c8_empty_url_witness :
    c8State.loading = false ∧ handleEnterOnRequestTab c8State = (c8State, Cmd.nop) :=
  ⟨rfl, c8_empty_url_enter_noop c8State rfl (by decide) (by decide)⟩

/-- C9: folding either a response or an error switches the active tab to
    the Response tab, whatever the prior tab. -/
theorem c9_fold_switches_to_response_tab (fj : String → Option String)
    (d : ResponseData) (e : ErrorData) (s : AppState) :
    (SetResponseData fj d s).activeTab = Tab.response ∧
    (SetError e s).activeTab = Tab.response :=
  ⟨rfl, rfl⟩

/-- C10: a fresh model's header list is exactly the default Content-Type
    entry, and any run of edits that never touches the header list leaves
    that single header on the request handed to the transport builder. -/
theorem c10_default_content_type_header (loaded : List SavedRequest)
    (es : List DraftEdit) (h : ∀ e ∈ es, e.touchesHeaders = false) :
    (NewAppModel loaded).headers = [⟨"Content-Type", "application/json"⟩] ∧
    (NewHTTPRequest (applyEdits es (NewAppModel loaded))).headers =
      [⟨"Content-Type", "application/json"⟩] := by
  constructor
  · rfl
  · show (applyEdits es (NewAppModel loaded)).headers = _
    rw [headers_applyEdits es _ h]
    rfl

/-- C10 witness: editing only the URL keeps the default header on the
    built request. -/
theorem c10_default_header_witness :
    (NewAppModel []).headers = [⟨"Content-Type", "application/json"⟩] ∧
    (NewHTTPRequest (applyEdits [DraftEdit.setURL "http://x"] (NewAppModel []))).headers =
      [⟨"Content-Type", "application/json"⟩] :=
  c10_default_content_type_header [] [DraftEdit.setURL "http://x"] (by decide)

end Postui
